import Mathlib

set_option maxRecDepth 16000

/-!
Verification of the crdmetrics metric pipeline: a shallow embedding of the
resolver, metric writer, family and store code, together with theorems about
the behavior of that embedding.

Sources embedded (Go):
- pkg/resolver/resolver.go, pkg/resolver/cel.go, the unstructured resolver
  (UnstructuredResolver.Resolve);
- internal/metric.go (writeMetricTo, sortLabelset, MetricType);
- internal/family.go (FamilyType.rawWith, FamilyType.buildHeaders);
- internal/store.go (StoreType.Add, StoreType.Replace);
- internal/builder.go (buildStore, the resolver-defaulting part).

Conventions: Go maps are modelled as association lists with unique keys;
pointer mutation of the metric and family specs is modelled by returning the
updated spec alongside the produced string; fallible Go functions return
Except or a product with Except. The cel-go library is external to the
repository, so CEL evaluation is abstracted as an outcome value (or an
oracle function) while the dispatch logic of CELResolver.Resolve is embedded
faithfully.
-/

namespace Crdmetrics

/-- GoValue models the JSON-shaped values stored in an unstructured object
map (interface values produced by the unstructured converter): nil, bool,
int64, float64, string, map of string to value, and slice of values.
Floats are carried as exact rationals. -/
inductive GoValue where
  | null : GoValue
  | bool (b : Bool) : GoValue
  | int (n : Int) : GoValue
  | float (q : Rat) : GoValue
  | str (s : String) : GoValue
  | obj (entries : List (String × GoValue)) : GoValue
  | arr (elems : List GoValue) : GoValue

/-- An unstructured object map (the field u.Object of
unstructured.Unstructured): the top-level map of a Kubernetes object. -/
abbrev UnstrMap := List (String × GoValue)

/-- goFmtFloat renders a float64 the way the Go verb %v does for simple
values: integral values print without a fraction, other values print their
terminating decimal expansion (up to 17 fractional digits, trailing zeros
trimmed). The exponent forms that Go switches to for very large or very
small magnitudes are not modelled; no claim exercises float rendering. -/
def goFmtFloat (q : Rat) : String :=
  if q.den = 1 then toString q.num
  else
    let neg := q.num < 0
    let n := q.num.natAbs
    let d := q.den
    let ip := n / d
    let digits := (List.range 17).foldl
      (fun (acc : List Nat × Nat) _ =>
        let x := acc.2 * 10
        (acc.1 ++ [x / d], x % d))
      (([] : List Nat), n % d)
    let ds := (digits.1.reverse.dropWhile (· = 0)).reverse
    (if neg then "-" else "") ++ toString ip ++ "." ++
      String.join (ds.map (fun d2 => toString d2))

/-- lexLe is lexicographic order on character lists, by code point; for the
valid UTF-8 both Go and Lean strings hold, this coincides with the
byte-lexicographic order Go string comparison uses. -/
def lexLe : List Char → List Char → Bool
  | [], _ => true
  | _ :: _, [] => false
  | a :: as, b :: bs =>
      if a.toNat < b.toNat then true
      else if b.toNat < a.toNat then false
      else lexLe as bs

/-- keyOrder orders formatted map entries by key, the order the fmt package
uses when printing a Go map (byte-lexicographic on the keys). -/
def keyOrder (p q : String × String) : Prop := lexLe p.1.data q.1.data = true

instance : DecidableRel keyOrder := fun p q =>
  inferInstanceAs (Decidable (_ = true))

mutual
/-- gofmtV renders a GoValue the way fmt.Sprintf with the verb %v renders
the corresponding Go interface value: nil prints as <nil>, maps print as
map[k1:v1 k2:v2] with keys sorted, slices print as [e1 e2]. -/
def gofmtV : GoValue → String
  | GoValue.null => "<nil>"
  | GoValue.bool b => if b then "true" else "false"
  | GoValue.int n => toString n
  | GoValue.float q => goFmtFloat q
  | GoValue.str s => s
  | GoValue.obj entries =>
      "map[" ++
        String.intercalate " "
          ((List.insertionSort keyOrder (gofmtEntries entries)).map
            (fun p => p.1 ++ ":" ++ p.2)) ++ "]"
  | GoValue.arr elems =>
      "[" ++ String.intercalate " " (gofmtElems elems) ++ "]"

/-- gofmtEntries renders each value of a map entry list. -/
def gofmtEntries : List (String × GoValue) → List (String × String)
  | [] => []
  | (k, v) :: t => (k, gofmtV v) :: gofmtEntries t

/-- gofmtElems renders each element of a slice. -/
def gofmtElems : List GoValue → List String
  | [] => []
  | v :: t => gofmtV v :: gofmtElems t
end

/-- splitChars splits a character list on a separator character, keeping
empty segments, the way strings.Split does for a one-character separator;
the empty string yields one empty segment. -/
def splitChars (sep : Char) : List Char → List (List Char)
  | [] => [[]]
  | c :: t =>
      if c = sep then [] :: splitChars sep t
      else
        match splitChars sep t with
        | h :: r => (c :: h) :: r
        | [] => [[c]]

/-- splitOnSep models strings.Split with a one-character separator. -/
def splitOnSep (sep : Char) (s : String) : List String :=
  (splitChars sep s.toList).map (fun l => String.mk l)

/-- nestedWalk is the loop of unstructured.NestedFieldNoCopy: walk the
remaining fields down the value. Result ok none means not found, ok (some v)
means found, error means an intermediate value was not a map. The nil check
of the loop precedes the map check, so a null intermediate yields not-found
rather than an error. -/
def nestedWalk : List String → GoValue → Except String (Option GoValue)
  | [], v => Except.ok (some v)
  | _ :: _, GoValue.null => Except.ok none
  | f :: rest, GoValue.obj entries =>
      match entries.lookup f with
      | none => Except.ok none
      | some v => nestedWalk rest v
  | _ :: _, _ => Except.error "accessor error: expected map"

/-- nestedFieldNoCopy models unstructured.NestedFieldNoCopy applied to an
object map and a field path. -/
def nestedFieldNoCopy (obj : UnstrMap) (fields : List String) :
    Except String (Option GoValue) :=
  nestedWalk fields (GoValue.obj obj)

/-- nestedString models unstructured.NestedString-style accessors used by
GetUID and GroupVersionKind: the empty string unless the path resolves to a
string value. -/
def nestedString (obj : UnstrMap) (fields : List String) : String :=
  match nestedFieldNoCopy obj fields with
  | Except.ok (some (GoValue.str s)) => s
  | _ => ""

/-- getUID models unstructured.GetUID: the metadata.uid string of the
object, empty when absent. -/
def getUID (obj : UnstrMap) : String :=
  nestedString obj ["metadata", "uid"]

/-- parseGroupVersion models schema.ParseGroupVersion: empty or "/" parse to
the empty group and version, a single segment is a version with empty group,
two segments split into group and version, more segments are an error. -/
def parseGroupVersion (s : String) : Option (String × String) :=
  if s = "" ∨ s = "/" then some ("", "")
  else
    match splitOnSep '/' s with
    | [v] => some ("", v)
    | [g, v] => some (g, v)
    | _ => none

/-- getGVK models unstructured.GroupVersionKind via
schema.FromAPIVersionAndKind: parse the apiVersion field; on a parse error
only the kind is kept. -/
def getGVK (obj : UnstrMap) : String × String × String :=
  let apiVersion := nestedString obj ["apiVersion"]
  let kind := nestedString obj ["kind"]
  match parseGroupVersion apiVersion with
  | some (g, v) => (g, v, kind)
  | none => ("", "", kind)

/-- unstructuredResolve embeds UnstructuredResolver.Resolve: split the query
on dots, walk the object; a not-found path or an accessor error falls back
to the literal singleton (query, query); a found value, composite or not, is
rendered with the %v verb into a singleton keyed by the query. -/
def unstructuredResolve (query : String) (obj : UnstrMap) :
    List (String × String) :=
  match nestedFieldNoCopy obj (splitOnSep '.' query) with
  | Except.ok none => [(query, query)]
  | Except.error _ => [(query, query)]
  | Except.ok (some v) => [(query, gofmtV v)]

/-- CELElem models one element of a CEL map or list result as cel-go hands
it back: either a primitive already rendered with the %v verb, or a
composite (nested map or list), which the resolver skips. -/
inductive CELElem where
  | prim (rendered : String) : CELElem
  | composite : CELElem

/-- CELVal models the value of a successful CEL evaluation as dispatched on
by CELResolver.Resolve: a primitive (bool, double, int, string, uint)
rendered with the %v verb, a map, a list, or an output type outside the
switch (the default branch). -/
inductive CELVal where
  | prim (rendered : String) : CELVal
  | mapv (entries : List (String × CELElem)) : CELVal
  | listv (elems : List CELElem) : CELVal
  | unsupported : CELVal

/-- CELOutcome models what the cel-go library reports back for one
evaluation of a query against an object: an environment-construction error,
a parse error, a compile error, an evaluation error (which includes
exceeding the cost limit), or success with a value. -/
inductive CELOutcome where
  | envError : CELOutcome
  | parseError : CELOutcome
  | compileError : CELOutcome
  | evalError : CELOutcome
  | success (v : CELVal) : CELOutcome

/-- CELOutcome.isError is true on the four error outcomes. -/
def CELOutcome.isError : CELOutcome → Bool
  | CELOutcome.envError => true
  | CELOutcome.parseError => true
  | CELOutcome.compileError => true
  | CELOutcome.evalError => true
  | CELOutcome.success _ => false

/-- celResolveMap embeds CELResolver.resolveMap: keep the entries whose
values are primitives, skip composite values. The defensive nil branch for
a failed interface cast is not modelled; the cast from the structured value
always succeeds. -/
def celResolveMap (entries : List (String × CELElem)) :
    List (String × String) :=
  entries.filterMap (fun p =>
    match p.2 with
    | CELElem.prim s => some (p.1, s)
    | CELElem.composite => none)

/-- celResolveList embeds CELResolver.resolveList: the key of an element is
its decimal index; composite elements are skipped. -/
def celResolveList (elems : List CELElem) : List (String × String) :=
  elems.enum.filterMap (fun p =>
    match p.2 with
    | CELElem.prim s => some (toString p.1, s)
    | CELElem.composite => none)

/-- celResolve embeds the dispatch of CELResolver.Resolve given the outcome
reported by cel-go: every error outcome falls back to the literal singleton
(query, query); a successful primitive yields a singleton keyed by the
query; maps and lists expand entry-wise; an unsupported output type yields
the empty labelset. -/
def celResolve (query : String) (outcome : CELOutcome) :
    List (String × String) :=
  match outcome with
  | CELOutcome.envError => [(query, query)]
  | CELOutcome.parseError => [(query, query)]
  | CELOutcome.compileError => [(query, query)]
  | CELOutcome.evalError => [(query, query)]
  | CELOutcome.success v =>
      match v with
      | CELVal.prim s => [(query, s)]
      | CELVal.mapv entries => celResolveMap entries
      | CELVal.listv elems => celResolveList elems
      | CELVal.unsupported => []

/-- A CELEval function abstracts the cel-go evaluation of a query against an
object map: it is the oracle whose outcome CELResolver.Resolve dispatches
on. The repository never inspects it beyond that dispatch. -/
abbrev CELEval := String → UnstrMap → CELOutcome

/-- ResolverInstance is the runtime resolver chosen by the switch in
FamilyType.rawWith: the CEL resolver or the unstructured resolver. -/
inductive ResolverInstance where
  | cel : ResolverInstance
  | unstr : ResolverInstance

/-- ResolverInstance.resolve dispatches Resolve to the chosen resolver
implementation; the CEL branch runs the dispatch of CELResolver.Resolve over
the outcome the oracle reports. -/
def ResolverInstance.resolve (inst : ResolverInstance) (celEval : CELEval)
    (query : String) (obj : UnstrMap) : List (String × String) :=
  match inst with
  | ResolverInstance.cel => celResolve query (celEval query obj)
  | ResolverInstance.unstr => unstructuredResolve query obj

/-- GoFloat models a float64 as the metric writer needs it: a finite value
(held as an exact rational; the rounding of the decimal literal to binary is
not modelled, which is exact for every value the claims exercise), or one of
the non-finite specials. -/
inductive GoFloat where
  | finite (q : Rat) : GoFloat
  | posInf : GoFloat
  | negInf : GoFloat
  | nan : GoFloat
deriving DecidableEq

/-- The largest finite float64, (2^53 - 1) * 2^971, used for the range
check of strconv.ParseFloat. -/
def maxFloat64 : Rat := mkRat (((2 ^ 53 - 1) * 2 ^ 971 : Nat) : Int) 1

/-- digitsToNat folds decimal digit characters into a natural number. -/
def digitsToNat (ds : List Char) : Nat :=
  ds.foldl (fun acc c => acc * 10 + (c.toNat - 48)) 0

/-- isHexDigitCh tests for an ASCII hexadecimal digit. -/
def isHexDigitCh (c : Char) : Bool :=
  c.isDigit ∨ ('a' ≤ c ∧ c ≤ 'f') ∨ ('A' ≤ c ∧ c ≤ 'F')

/-- hexDigitsToNat folds hexadecimal digit characters into a natural
number. -/
def hexDigitsToNat (ds : List Char) : Nat :=
  ds.foldl (fun acc c =>
    acc * 16 +
      (if c.isDigit then c.toNat - 48
       else if c ≥ 'a' then c.toNat - 87 else c.toNat - 55)) 0

/-- parseSpecial models the special-value scan of strconv.ParseFloat: an
optional sign followed by inf or infinity (case-insensitive), or nan
(case-insensitive) without a sign; the whole string must be consumed. -/
def parseSpecial (cs : List Char) : Option GoFloat :=
  let (neg, rest) :=
    match cs with
    | '+' :: t => (false, t)
    | '-' :: t => (true, t)
    | _ => (false, cs)
  let low := rest.map Char.toLower
  if low = "inf".toList ∨ low = "infinity".toList then
    some (if neg then GoFloat.negInf else GoFloat.posInf)
  else if cs.map Char.toLower = "nan".toList then some GoFloat.nan
  else none

/-- parseDecMantissa reads the decimal mantissa and optional exponent of
strconv.ParseFloat: digits, an optional dot with more digits (at least one
digit overall), and an optional e or E exponent with at least one digit.
The value is returned as an exact rational. -/
def parseDecMantissa (cs : List Char) : Option Rat :=
  let d1 := cs.takeWhile Char.isDigit
  let r1 := cs.dropWhile Char.isDigit
  let (d2, r2) :=
    match r1 with
    | '.' :: t => (t.takeWhile Char.isDigit, t.dropWhile Char.isDigit)
    | _ => ([], r1)
  if d1 = [] ∧ d2 = [] then none
  else
    let m := digitsToNat d1 * 10 ^ d2.length + digitsToNat d2
    let scaleDec := fun (ex : Int) =>
      let ey := ex - (d2.length : Int)
      if 0 ≤ ey then mkRat ((m * 10 ^ ey.toNat : Nat) : Int) 1
      else mkRat (m : Int) (10 ^ (-ey).toNat)
    match r2 with
    | [] => some (scaleDec 0)
    | e :: t =>
        if e = 'e' ∨ e = 'E' then
          let (eneg, t2) :=
            match t with
            | '+' :: t2 => (false, t2)
            | '-' :: t2 => (true, t2)
            | _ => (false, t)
          let ed := t2.takeWhile Char.isDigit
          if ed = [] ∨ t2.dropWhile Char.isDigit ≠ [] then none
          else
            let ex : Int :=
              if eneg then -(digitsToNat ed : Int) else (digitsToNat ed : Int)
            some (scaleDec ex)
        else none

/-- parseHexMantissa reads the hexadecimal mantissa of strconv.ParseFloat
after the 0x prefix: hex digits with an optional dot, then a mandatory p or
P binary exponent. -/
def parseHexMantissa (cs : List Char) : Option Rat :=
  let d1 := cs.takeWhile isHexDigitCh
  let r1 := cs.dropWhile isHexDigitCh
  let (d2, r2) :=
    match r1 with
    | '.' :: t => (t.takeWhile isHexDigitCh, t.dropWhile isHexDigitCh)
    | _ => ([], r1)
  if d1 = [] ∧ d2 = [] then none
  else
    let m := hexDigitsToNat d1 * 16 ^ d2.length + hexDigitsToNat d2
    match r2 with
    | p :: t =>
        if p = 'p' ∨ p = 'P' then
          let (eneg, t2) :=
            match t with
            | '+' :: t2 => (false, t2)
            | '-' :: t2 => (true, t2)
            | _ => (false, t)
          let ed := t2.takeWhile Char.isDigit
          if ed = [] ∨ t2.dropWhile Char.isDigit ≠ [] then none
          else
            let ex : Int :=
              if eneg then -(digitsToNat ed : Int) else (digitsToNat ed : Int)
            let ey := ex - (4 * d2.length : Int)
            some (if 0 ≤ ey then mkRat ((m * 2 ^ ey.toNat : Nat) : Int) 1
              else mkRat (m : Int) (2 ^ (-ey).toNat))
        else none
    | [] => none

/-- goParseFloat models strconv.ParseFloat with bit size 64: empty input is
an error; the specials NaN, Inf, +Inf, -Inf and Infinity parse successfully
to non-finite values; otherwise the decimal or hexadecimal literal syntax
applies, and a finite value whose magnitude exceeds the largest float64 is
an error (ErrRange; the half-ulp rounding band just above the maximum is
treated as out of range too, a boundary no claim exercises). Underscore
digit separators are not modelled. -/
def goParseFloat (s : String) : Option GoFloat :=
  let cs := s.toList
  if cs = [] then none
  else
    match parseSpecial cs with
    | some f => some f
    | none =>
        let (neg, rest) :=
          match cs with
          | '+' :: t => (false, t)
          | '-' :: t => (true, t)
          | _ => (false, cs)
        let mant : Option Rat :=
          match rest with
          | '0' :: x :: t =>
              if x = 'x' ∨ x = 'X' then parseHexMantissa t
              else parseDecMantissa rest
          | _ => parseDecMantissa rest
        match mant with
        | none => none
        | some q =>
            if maxFloat64 < q then none
            else some (GoFloat.finite (if neg then -q else q))

/-- pad6 prints a natural number below 1000000 as exactly six digits. -/
def pad6 (n : Nat) : String :=
  let s := toString n
  String.mk (List.replicate (6 - s.length) '0') ++ s

/-- formatFloatF models fmt.Fprintf with the verb %f (six fractional
digits) as strconv.FormatFloat performs it: non-finite specials print as
NaN, +Inf and -Inf; finite values are rounded at the sixth decimal, ties to
even, and printed with the sign of the value. -/
def formatFloatF (f : GoFloat) : String :=
  match f with
  | GoFloat.nan => "NaN"
  | GoFloat.posInf => "+Inf"
  | GoFloat.negInf => "-Inf"
  | GoFloat.finite q =>
      let neg := q.num < 0
      let sn := q.num.natAbs * 1000000
      let d := q.den
      let fl := sn / d
      let rem := sn % d
      let k :=
        if 2 * rem < d then fl
        else if d < 2 * rem then fl + 1
        else if fl % 2 = 0 then fl else fl + 1
      (if neg then "-" else "") ++ toString (k / 1000000) ++ "." ++
        pad6 (k % 1000000)

/-- escapeChar is the character-wise action of the replacer in
writeMetricTo: backslash, newline and double quote are escaped, everything
else passes through. -/
def escapeChar (c : Char) : String :=
  if c = '\\' then "\\\\"
  else if c = '\n' then "\\n"
  else if c = '"' then "\\\""
  else String.singleton c

/-- escapeValue models strings.NewReplacer applied to a label value; since
every pattern is a single character, the single left-to-right pass is a
character map. -/
def escapeValue (s : String) : String :=
  String.join (s.toList.map escapeChar)

/-- lexLe is total. -/
theorem lexLe_total : ∀ as bs : List Char, lexLe as bs = true ∨ lexLe bs as = true := by
  intro as
  induction as with
  | nil => intro bs; exact Or.inl rfl
  | cons a as2 ih =>
      intro bs
      cases bs with
      | nil => exact Or.inr rfl
      | cons b bs2 =>
          by_cases h1 : a.toNat < b.toNat
          · exact Or.inl (by simp [lexLe, h1])
          · by_cases h2 : b.toNat < a.toNat
            · exact Or.inr (by simp [lexLe, h2])
            · rcases ih bs2 with h | h
              · exact Or.inl (by simp [lexLe, h1, h2, h])
              · exact Or.inr (by simp [lexLe, h1, h2, h])

/-- lexLe is transitive. -/
theorem lexLe_trans : ∀ as bs cs : List Char,
    lexLe as bs = true → lexLe bs cs = true → lexLe as cs = true := by
  intro as
  induction as with
  | nil => intro bs cs _ _; rfl
  | cons a as2 ih =>
      intro bs cs hab hbc
      cases bs with
      | nil => simp [lexLe] at hab
      | cons b bs2 =>
          cases cs with
          | nil => simp [lexLe] at hbc
          | cons c cs2 =>
              simp only [lexLe] at hab hbc ⊢
              by_cases h1 : a.toNat < b.toNat
              · by_cases h2 : b.toNat < c.toNat
                · simp [Nat.lt_trans h1 h2]
                · simp only [if_neg h2] at hbc
                  by_cases h3 : c.toNat < b.toNat
                  · simp [h3] at hbc
                  · have hac : a.toNat < c.toNat := by omega
                    simp [hac]
              · simp only [if_neg h1] at hab
                by_cases h4 : b.toNat < a.toNat
                · simp [h4] at hab
                · simp only [if_neg h4] at hab
                  by_cases h2 : b.toNat < c.toNat
                  · have hac : a.toNat < c.toNat := by omega
                    simp [hac]
                  · simp only [if_neg h2] at hbc
                    by_cases h3 : c.toNat < b.toNat
                    · simp [h3] at hbc
                    · simp only [if_neg h3] at hbc
                      have hac : ¬ a.toNat < c.toNat := by omega
                      have hca : ¬ c.toNat < a.toNat := by omega
                      simp [hac, hca, ih bs2 cs2 hab hbc]

/-- labelLe is the order writeMetricTo sorts the labelset by, lifted to
(key, value) pairs: shorter keys first, lexicographic on equal lengths (the
less function of sortLabelset, made reflexive). -/
def labelLe (p q : String × String) : Prop :=
  p.1.length < q.1.length ∨
    (p.1.length = q.1.length ∧ lexLe p.1.data q.1.data = true)

instance : DecidableRel labelLe := fun p q =>
  inferInstanceAs (Decidable (_ ∨ _))

instance : IsTotal (String × String) labelLe :=
  ⟨fun p q => by
    rcases Nat.lt_trichotomy p.1.length q.1.length with h | h | h
    · exact Or.inl (Or.inl h)
    · rcases lexLe_total p.1.data q.1.data with h2 | h2
      · exact Or.inl (Or.inr ⟨h, h2⟩)
      · exact Or.inr (Or.inr ⟨h.symm, h2⟩)
    · exact Or.inr (Or.inl h)⟩

instance : IsTrans (String × String) labelLe :=
  ⟨fun p q rr hpq hqr => by
    rcases hpq with h1 | ⟨e1, l1⟩
    · rcases hqr with h2 | ⟨e2, _⟩
      · exact Or.inl (h1.trans h2)
      · exact Or.inl (e2 ▸ h1)
    · rcases hqr with h2 | ⟨e2, l2⟩
      · exact Or.inl (e1 ▸ h2)
      · exact Or.inr ⟨e1.trans e2, lexLe_trans _ _ _ l1 l2⟩⟩

/-- sortLabelset embeds the sortLabelset function of metric.go: pair up the
keys and values, sort the pairs by the label key (length ascending, then
lexicographic), and read the two slices back. Go sorts with sort.Slice,
whose order among pairs with equal keys is unspecified; the embedding uses
a stable insertion sort satisfying the same comparator. -/
def sortLabelset (resolvedLabelKeys resolvedLabelValues : List String) :
    List String × List String :=
  let labelsets := resolvedLabelKeys.zip resolvedLabelValues
  let sorted := List.insertionSort labelLe labelsets
  (sorted.map Prod.fst, sorted.map Prod.snd)

/-- renderLabels renders the brace-delimited labelset of a metric line the
way the writer loop of writeMetricTo does: key="escaped value", separated
by commas; an empty labelset renders no braces. -/
def renderLabels (keys values : List String) : String :=
  if keys.length > 0 then
    "\x7b" ++
      String.intercalate ","
        ((keys.zip values).map
          (fun p => p.1 ++ "=\"" ++ escapeValue p.2 ++ "\"")) ++ "\x7d"
  else ""

/-- writeMetricTo embeds writeMetricTo of metric.go, returning the text the
call appends to the string builder, or the error it returns: mismatched
labelset lengths are an error; the labelset is sorted, the synthetic group,
version and kind labels are appended with the object values, the labels are
written with escaping, and the metric value is parsed as a float64 (a parse
failure is an error and, because the caller discards the per-metric builder
on error, nothing is emitted) and formatted with the %f verb. -/
def writeMetricTo (g v k resolvedValue : String)
    (resolvedLabelKeys resolvedLabelValues : List String) :
    Except String String :=
  if resolvedLabelKeys.length ≠ resolvedLabelValues.length then
    Except.error "labelKeys and labelValues length mismatch"
  else
    let sorted := sortLabelset resolvedLabelKeys resolvedLabelValues
    let keys := sorted.1 ++ ["group", "version", "kind"]
    let values := sorted.2 ++ [g, v, k]
    match goParseFloat resolvedValue with
    | none => Except.error "error parsing metric value as float64"
    | some f =>
        Except.ok (renderLabels keys values ++ " " ++ formatFloatF f ++ "\n")

/-- MetricType embeds the MetricType struct of metric.go. The resolver field
keeps the string representation the YAML tags use: empty for unset, cel, or
unstructured. -/
structure MetricType where
  labelKeys : List String
  labelValues : List String
  value : String
  resolver : String
deriving DecidableEq

/-- FamilyType embeds the FamilyType struct of family.go (the t field is the
metric type, pinned to gauge by buildHeaders; the logger is omitted). -/
structure FamilyType where
  name : String
  help : String
  t : String
  metrics : List MetricType
  resolver : String
  labelKeys : List String
  labelValues : List String
deriving DecidableEq

/-- The metric name head kube_customresource_ that family.go prepends to
every metric and header (the kubeCustomResourcePrefix constant). -/
def metricNameHead : String := "kube_customresource_"

/-- The gauge metric type constant of family.go. -/
def metricTypeGauge : String := "gauge"

/-- normalizeKey models the label-key normalization of FamilyType.rawWith:
every character the Go regular expression class of non-word characters
matches (anything outside ASCII letters, digits and underscore) becomes an
underscore, and the result is lowercased (ASCII; no claim uses non-ASCII
keys). -/
def normalizeKey (s : String) : String :=
  String.mk
    ((s.toList.map (fun c => if c.isAlphanum ∨ c = '_' then c else '_')).map
      Char.toLower)

/-- instFor models the resolver switch of FamilyType.rawWith on the
inherited resolver string: the empty string falls through to the CEL
resolver, cel selects CEL, unstructured selects the unstructured resolver,
and any other string is unknown (the metric is skipped). -/
def instFor (r : String) : Option ResolverInstance :=
  if r = "" ∨ r = "cel" then some ResolverInstance.cel
  else if r = "unstructured" then some ResolverInstance.unstr
  else none

/-- resolveLabelset is the labelset-resolution loop of FamilyType.rawWith:
for the query at each index, when the returned labelset still holds the
query as a key the supplied label key (normalized) and the resolved value
are appended; otherwise one pair per returned entry is appended, the new
key being the supplied key concatenated with the entry key, normalized. The
Go code indexes the label keys by the label-value index and would panic on a
shorter key slice; the embedding reads the empty string there instead, a
case no claim reaches. -/
def resolveLabelset (inst : ResolverInstance) (celEval : CELEval)
    (keys : List String) (queries : List String) (obj : UnstrMap) :
    List String × List String :=
  (queries.enum.map (fun p =>
    let query := p.2
    let i := p.1
    let resolvedLabelset := inst.resolve celEval query obj
    match resolvedLabelset.lookup query with
    | some v => ([normalizeKey (keys.getD i "")], [v])
    | none =>
        (resolvedLabelset.map
          (fun (e : String × String) => normalizeKey (keys.getD i "" ++ e.1)),
         resolvedLabelset.map (fun (e : String × String) => e.2)))).foldr
    (fun p acc => (p.1 ++ acc.1, p.2 ++ acc.2)) ([], [])

/-- processMetric is one iteration of the metric loop of FamilyType.rawWith:
label keys and values are inherited from the family by in-place append, the
resolver is inherited when unset, the switch picks the resolver instance
(unknown resolvers skip the metric, keeping the mutations), the labelset and
the metric value are resolved (a missing value skips the metric), and the
metric line is written (a writer error skips the metric). The returned
MetricType carries the mutations of the shared spec; the returned string is
what the iteration appends to the family block. -/
def processMetric (celEval : CELEval) (f : FamilyType) (obj : UnstrMap)
    (m : MetricType) : MetricType × String :=
  let m1 : MetricType :=
    { m with
      labelKeys := m.labelKeys ++ f.labelKeys
      labelValues := m.labelValues ++ f.labelValues }
  let m2 : MetricType :=
    { m1 with resolver := if m1.resolver = "" then f.resolver else m1.resolver }
  match instFor m2.resolver with
  | none => (m2, "")
  | some inst =>
      let resolved :=
        resolveLabelset inst celEval m2.labelKeys m2.labelValues obj
      match (inst.resolve celEval m2.value obj).lookup m2.value with
      | none => (m2, "")
      | some resolvedValue =>
          let gvk := getGVK obj
          match writeMetricTo gvk.1 gvk.2.1 gvk.2.2 resolvedValue
              resolved.1 resolved.2 with
          | Except.error _ => (m2, "")
          | Except.ok suffix => (m2, metricNameHead ++ f.name ++ suffix)

/-- processMetrics folds processMetric over the metric specs, collecting the
mutated specs and concatenating the surviving metric lines. -/
def processMetrics (celEval : CELEval) (f : FamilyType) (obj : UnstrMap) :
    List MetricType → List MetricType × String
  | [] => ([], "")
  | m :: rest =>
      let r := processMetric celEval f obj m
      let rr := processMetrics celEval f obj rest
      (r.1 :: rr.1, r.2 ++ rr.2)

/-- FamilyType.rawWith embeds rawWith of family.go: render the family block
for one observed object, returning the family with its mutated metric specs
alongside the block. -/
def FamilyType.rawWith (celEval : CELEval) (f : FamilyType) (obj : UnstrMap) :
    FamilyType × String :=
  let r := processMetrics celEval f obj f.metrics
  ({ f with metrics := r.1 }, r.2)

/-- FamilyType.buildHeaders embeds buildHeaders of family.go: the HELP and
TYPE lines for the family; the call pins the t field to gauge, so the
mutated family is returned alongside the header. -/
def FamilyType.buildHeaders (f : FamilyType) : FamilyType × String :=
  ({ f with t := metricTypeGauge },
    "# HELP " ++ metricNameHead ++ f.name ++ " " ++ f.help ++ "\n" ++
      "# TYPE " ++ metricNameHead ++ f.name ++ " " ++ metricTypeGauge)

/-- StoreType embeds the StoreType struct of store.go: the per-UID metric
map and headers, plus the configuration fields the YAML populates (the
logger and mutex are omitted; selectors are kept as two strings). -/
structure StoreType where
  metrics : List (String × List String)
  headers : List String
  group : String
  version : String
  kind : String
  resourceName : String
  families : List FamilyType
  resolver : String
  labelKeys : List String
  labelValues : List String
deriving DecidableEq

/-- GoObject models the interface value handed to the store by the
reflector together with the outcome of
runtime.DefaultUnstructuredConverter.ToUnstructured on it: an object that
converts to an unstructured map, or one the converter rejects. -/
inductive GoObject where
  | unstr (u : UnstrMap) : GoObject
  | unconvertible (msg : String) : GoObject

/-- toUnstructured models the unstructured conversion at the top of
StoreType.Add. -/
def toUnstructured : GoObject → Except String UnstrMap
  | GoObject.unstr u => Except.ok u
  | GoObject.unconvertible msg => Except.error msg

/-- updateAssoc is Go map assignment on an association list: replace the
entry in place when the key is present, append otherwise. -/
def updateAssoc {α : Type} (l : List (String × α)) (k : String) (v : α) :
    List (String × α) :=
  match l with
  | [] => [(k, v)]
  | (k2, v2) :: t =>
      if k2 = k then (k, v) :: t else (k2, v2) :: updateAssoc t k v

/-- processFamily is one iteration of the family loop of StoreType.Add: the
family inherits the store resolver when unset and the store label keys and
values by in-place append, then renders its block with rawWith. -/
def processFamily (celEval : CELEval) (s : StoreType) (obj : UnstrMap)
    (f : FamilyType) : FamilyType × String :=
  let f1 : FamilyType :=
    { f with
      resolver := if f.resolver = "" then s.resolver else f.resolver }
  let f2 : FamilyType :=
    { f1 with
      labelKeys := f1.labelKeys ++ s.labelKeys
      labelValues := f1.labelValues ++ s.labelValues }
  FamilyType.rawWith celEval f2 obj

/-- processFamilies folds processFamily over the family list, collecting
the mutated families and the family blocks. -/
def processFamilies (celEval : CELEval) (s : StoreType) (obj : UnstrMap) :
    List FamilyType → List FamilyType × List String
  | [] => ([], [])
  | f :: rest =>
      let r := processFamily celEval s obj f
      let rr := processFamilies celEval s obj rest
      (r.1 :: rr.1, r.2 :: rr.2)

/-- StoreType.Add embeds Add of store.go: convert the object (a conversion
error returns before anything is touched, so the store comes back
unchanged), generate the family blocks (mutating the family and metric
specs in place), and store them under the object UID. The celEval oracle
abstracts the cel-go library for any metric that selects the CEL
resolver. -/
def StoreType.Add (celEval : CELEval) (s : StoreType) (objectI : GoObject) :
    StoreType × Except String Unit :=
  match toUnstructured objectI with
  | Except.error e =>
      (s, Except.error ("error converting object interface to unstructured: "
        ++ e))
  | Except.ok u =>
      let r := processFamilies celEval s u s.families
      ({ s with
          families := r.1
          metrics := updateAssoc s.metrics (getUID u) r.2 },
        Except.ok ())

/-- StoreType.Replace embeds Replace of store.go: the body is a bare nil
return (the reflector issues Replace then Add on startup, and building twice
is avoided by skipping here), so the store is untouched and no error is
possible. -/
def StoreType.Replace (s : StoreType) (_objectIs : List GoObject)
    (_resourceVersion : String) : StoreType × Except String Unit :=
  (s, Except.ok ())

/-- buildHeadersAll maps buildHeaders over the family list of buildStore,
threading the t mutation. -/
def buildHeadersAll : List FamilyType → List FamilyType × List String
  | [] => ([], [])
  | f :: rest =>
      let r := FamilyType.buildHeaders f
      let rr := buildHeadersAll rest
      (r.1 :: rr.1, r.2 :: rr.2)

/-- buildStore embeds the store-construction part of buildStore in
builder.go: build the headers (pinning each family type to gauge), replace
an unset store-level resolver with the unstructured resolver, and
instantiate the store with an empty metric map. The list/watch closures and
the reflector goroutine are I/O against the cluster and are not modelled;
they do not touch the store construction. -/
def buildStore (g v k r : String) (metricFamilies : List FamilyType)
    (resolver : String) (labelKeys labelValues : List String) : StoreType :=
  let hs := buildHeadersAll metricFamilies
  let resolved := if resolver = "" then "unstructured" else resolver
  { metrics := []
    headers := hs.2
    group := g
    version := v
    kind := k
    resourceName := r
    families := hs.1
    resolver := resolved
    labelKeys := labelKeys
    labelValues := labelValues }

/-!
Concrete fixtures used by the counterexamples and witnesses: the custom
resource of the end-to-end scenarios of the specification (metadata.name a,
metadata.labels.env prod, group g, version v, kind K) and small family and
store configurations.
-/

/-- A CEL oracle that reports a parse error for every query; metrics that
resolve through the unstructured resolver never consult it. -/
def celEvalParseErr : CELEval := fun _ _ => CELOutcome.parseError

/-- A CEL oracle that reports every query as successfully resolving to
itself. -/
def celEvalEcho : CELEval := fun q _ => CELOutcome.success (CELVal.prim q)

/-- The custom resource of scenario E2 of the specification. -/
def c2Obj : UnstrMap :=
  [("apiVersion", GoValue.str "g/v"), ("kind", GoValue.str "K"),
   ("metadata", GoValue.obj
     [("name", GoValue.str "a"),
      ("labels", GoValue.obj [("env", GoValue.str "prod")])])]

/-- The family of scenario E2: one metric with label key labels_, label
value query metadata.labels, literal value 1, under the path resolver. -/
def c2Family : FamilyType :=
  { name := "info", help := "h", t := "", resolver := "unstructured",
    labelKeys := [], labelValues := [],
    metrics := [{ labelKeys := ["labels_"], labelValues := ["metadata.labels"],
                  value := "1", resolver := "" }] }

/-- A family with family-level label keys and values and one metric, every
resolver left unset. -/
def c3Family : FamilyType :=
  { name := "info", help := "h", t := "", resolver := "",
    labelKeys := ["a"], labelValues := ["metadata.name"],
    metrics := [{ labelKeys := [], labelValues := [],
                  value := "1", resolver := "" }] }

/-- A store built from c3Family with the store-level resolver unset. -/
def c3Store : StoreType := buildStore "g" "v" "K" "tests" [c3Family] "" [] []

/-- An observed custom resource with uid u1 and metadata.name x. -/
def c3Obj : GoObject := GoObject.unstr
  [("apiVersion", GoValue.str "g/v"), ("kind", GoValue.str "K"),
   ("metadata", GoValue.obj
     [("name", GoValue.str "x"), ("uid", GoValue.str "u1")])]

/-!
Helper lemmas shared by several claims.
-/

/-- Zipping the two projections of a pair list rebuilds the list. -/
theorem zip_proj_eq_self {α β : Type} :
    ∀ l : List (α × β), (l.map Prod.fst).zip (l.map Prod.snd) = l
  | [] => rfl
  | (a, b) :: t => by
      simp [List.zip, zip_proj_eq_self t]

/-- sortLabelset preserves the lengths of equal-length slices. -/
theorem sortLabelset_lengths (keys values : List String)
    (h : keys.length = values.length) :
    (sortLabelset keys values).1.length = keys.length ∧
    (sortLabelset keys values).2.length = keys.length := by
  constructor <;>
    simp [sortLabelset, List.length_zip, h]

/-- C8: for every list argument and resource version and every store state,
Replace returns nil, leaves the metric map and the headers unchanged, and
in fact returns the store state untouched: it neither clears existing
entries nor builds metrics for the listed objects. -/
theorem claim8_replace_is_noop (s : StoreType) (objectIs : List GoObject)
    (resourceVersion : String) :
    (StoreType.Replace s objectIs resourceVersion).1.metrics = s.metrics ∧
    (StoreType.Replace s objectIs resourceVersion).1.headers = s.headers ∧
    (StoreType.Replace s objectIs resourceVersion).1 = s ∧
    (StoreType.Replace s objectIs resourceVersion).2 = Except.ok () :=
  ⟨rfl, rfl, rfl, rfl⟩

/-- C9: for every query and every object, the unstructured resolver returns
a map with exactly one entry whose key is the query itself; composite
results are never expanded into several entries. -/
theorem claim9_unstructured_singleton (query : String) (obj : UnstrMap) :
    (unstructuredResolve query obj).map Prod.fst = [query] := by
  unfold unstructuredResolve
  cases hres : nestedFieldNoCopy obj (splitOnSep '.' query) with
  | ok o => cases o <;> simp
  | error e => simp

/-- C10: when the unstructured conversion of the incoming object fails,
Add returns the conversion error and the store state, its metric map in
particular, is exactly what it was: the only error exit of Add precedes
every mutation. -/
theorem claim10_add_conversion_failure_atomic (celEval : CELEval)
    (s : StoreType) (objectI : GoObject) (e : String)
    (h : toUnstructured objectI = Except.error e) :
    (StoreType.Add celEval s objectI).1 = s ∧
    (StoreType.Add celEval s objectI).1.metrics = s.metrics ∧
    (StoreType.Add celEval s objectI).2 =
      Except.error ("error converting object interface to unstructured: " ++ e)
    := by
  unfold StoreType.Add
  rw [h]
  exact ⟨rfl, rfl, rfl⟩

/-- Witness for C10 at a concrete unconvertible object. -/
theorem claim10_witness :
    (StoreType.Add celEvalParseErr c3Store (GoObject.unconvertible "boom")).1
      = c3Store :=
  (claim10_add_conversion_failure_atomic celEvalParseErr c3Store
    (GoObject.unconvertible "boom") "boom" rfl).1

/-- C5: both resolver variants are total functions of the query and the
object (they are Lean functions) and fall back to the literal singleton;
the CEL resolver returns the singleton (query, query) on every environment,
parse, compile or evaluation error outcome (exceeding the cost limit
surfaces as an evaluation error), and the path resolver returns the same
singleton both when the path is absent and when an intermediate value is
not a map, without raising. -/
theorem claim5_resolver_totality_fallback (query : String) :
    (∀ outcome : CELOutcome, outcome.isError = true →
      celResolve query outcome = [(query, query)]) ∧
    (∀ obj : UnstrMap,
      nestedFieldNoCopy obj (splitOnSep '.' query) = Except.ok none →
        unstructuredResolve query obj = [(query, query)]) ∧
    (∀ (obj : UnstrMap) (e : String),
      nestedFieldNoCopy obj (splitOnSep '.' query) = Except.error e →
        unstructuredResolve query obj = [(query, query)]) := by
  refine ⟨fun outcome hoc => ?_, fun obj h => ?_, fun obj e h => ?_⟩
  · cases outcome <;> simp_all [celResolve, CELOutcome.isError]
  · simp [unstructuredResolve, h]
  · simp [unstructuredResolve, h]

/-- Witness for C5: a parse-error outcome and a missing path both fall back
to the literal singleton at a concrete query and object. -/
theorem claim5_witness :
    celResolve "spec.missing" CELOutcome.parseError =
      [("spec.missing", "spec.missing")] ∧
    unstructuredResolve "spec.missing" c2Obj =
      [("spec.missing", "spec.missing")] :=
  ⟨(claim5_resolver_totality_fallback "spec.missing").1
      CELOutcome.parseError rfl,
   (claim5_resolver_totality_fallback "spec.missing").2.1 c2Obj rfl⟩

/-- Counterexample to C4: the resolved value string NaN parses successfully
under strconv.ParseFloat, so writeMetricTo does not return an error and the
emitted line carries the non-finite value NaN. -/
theorem claim4_counterexample :
    writeMetricTo "g" "v" "K" "NaN" [] [] =
      Except.ok "\x7bgroup=\"g\",version=\"v\",kind=\"K\"\x7d NaN\n" := by
  rfl

/-- C4 as amended: with matched labelset lengths, writeMetricTo succeeds
exactly when the value string parses under the Go float syntax; since that
syntax accepts the non-finite specials NaN, Inf, +Inf and -Inf, a line is
dropped only on a malformed (or out-of-range) value string, not on a
non-finite one. -/
theorem claim4_amended_value_parse (g v k resolvedValue : String)
    (keys values : List String) (h : keys.length = values.length) :
    (writeMetricTo g v k resolvedValue keys values).isOk =
      (goParseFloat resolvedValue).isSome := by
  unfold writeMetricTo
  rw [if_neg (by simp [h])]
  cases goParseFloat resolvedValue <;> simp [Except.isOk, Except.toBool]

/-- Witness for C4 as amended at a concrete parseable value. -/
theorem claim4_witness :
    (writeMetricTo "g" "v" "K" "2.5" ["k"] ["x"]).isOk =
      (goParseFloat "2.5").isSome :=
  claim4_amended_value_parse "g" "v" "K" "2.5" ["k"] ["x"] rfl

/-- Counterexample to C2: on the E2 object the path resolver finds the map
at metadata.labels (NestedFieldNoCopy reports composite values as found),
so it does not return the literal pair the claim states. -/
theorem claim2_counterexample :
    unstructuredResolve "metadata.labels" c2Obj ≠
      [("metadata.labels", "metadata.labels")] := by
  decide

/-- C2 as amended: the path resolver returns the singleton mapping the
query to the composite stringified with the %v verb, map[env:prod], and the
emitted metric line carries the label labels_ (the supplied key normalized,
with no suffix) with that stringified value. -/
theorem claim2_amended_literal_composite :
    unstructuredResolve "metadata.labels" c2Obj =
      [("metadata.labels", "map[env:prod]")] ∧
    (FamilyType.rawWith celEvalParseErr c2Family c2Obj).2 =
      "kube_customresource_info\x7blabels_=\"map[env:prod]\",group=\"g\"," ++
        "version=\"v\",kind=\"K\"\x7d 1.000000\n" :=
  ⟨rfl, rfl⟩

/-- C3 is violated by the code: rawWith appends the family-level label keys
and values into the shared metric spec on every call, and Add appends the
store-level ones into the family spec, so a second Add with the same object
and unchanged configuration duplicates every inherited label pair. The
first Add stores the block with the label a="x" once; the second Add stores
it with a="x" twice, so the store contents differ. -/
theorem claim3_add_not_idempotent :
    (StoreType.Add celEvalParseErr c3Store c3Obj).1.metrics =
      [("u1",
        ["kube_customresource_info\x7ba=\"x\",group=\"g\",version=\"v\"," ++
          "kind=\"K\"\x7d 1.000000\n"])] ∧
    (StoreType.Add celEvalParseErr
        (StoreType.Add celEvalParseErr c3Store c3Obj).1 c3Obj).1.metrics =
      [("u1",
        ["kube_customresource_info\x7ba=\"x\",a=\"x\",group=\"g\"," ++
          "version=\"v\",kind=\"K\"\x7d 1.000000\n"])] ∧
    (StoreType.Add celEvalParseErr
        (StoreType.Add celEvalParseErr c3Store c3Obj).1 c3Obj).1.metrics ≠
      (StoreType.Add celEvalParseErr c3Store c3Obj).1.metrics := by
  refine ⟨rfl, rfl, by decide⟩

/-- A successful writeMetricTo implies the input labelset had matched
lengths: the length check is the first exit of the writer. -/
theorem writeMetricTo_isOk_length (g v k val : String)
    (keys values : List String)
    (hok : (writeMetricTo g v k val keys values).isOk = true) :
    keys.length = values.length := by
  by_contra hne
  unfold writeMetricTo at hok
  rw [if_pos hne] at hok
  simp [Except.isOk, Except.toBool] at hok

/-- The shape of a successful writeMetricTo: the written line is rendered
from the sorted labelset with the synthetic group, version and kind labels
appended, followed by the formatted parsed value. -/
theorem writeMetricTo_ok_shape (g v k val : String)
    (keys values : List String) (h : keys.length = values.length) :
    ∀ out, writeMetricTo g v k val keys values = Except.ok out →
      ∃ f, goParseFloat val = some f ∧
        out = renderLabels
            ((sortLabelset keys values).1 ++ ["group", "version", "kind"])
            ((sortLabelset keys values).2 ++ [g, v, k]) ++ " " ++
          formatFloatF f ++ "\n" := by
  intro out hout
  unfold writeMetricTo at hout
  rw [if_neg (by simp [h])] at hout
  cases hgp : goParseFloat val with
  | none => rw [hgp] at hout; exact absurd hout (by simp)
  | some f =>
      rw [hgp] at hout
      simp only [Except.ok.injEq] at hout
      exact ⟨f, rfl, hout.symm⟩

/-- C1: writeMetricTo returns an error whenever the resolved key and value
slices differ in length (so a successful write implies parity of the
input), and on success the written line is rendered from the sorted keys
with exactly the three synthetic keys group, version, kind appended and the
sorted values with exactly the three corresponding values appended, both
slices of length three more than the input, so the line holds equally many
keys and values. -/
theorem claim1_label_parity (g v k val : String) (keys values : List String) :
    ((writeMetricTo g v k val keys values).isOk = true →
      keys.length = values.length) ∧
    (keys.length = values.length →
      ((sortLabelset keys values).1 ++ ["group", "version", "kind"]).length
          = keys.length + 3 ∧
      ((sortLabelset keys values).2 ++ [g, v, k]).length = keys.length + 3 ∧
      ∀ out, writeMetricTo g v k val keys values = Except.ok out →
        ∃ f, goParseFloat val = some f ∧
          out = renderLabels
              ((sortLabelset keys values).1 ++ ["group", "version", "kind"])
              ((sortLabelset keys values).2 ++ [g, v, k]) ++ " " ++
            formatFloatF f ++ "\n") := by
  constructor
  · exact writeMetricTo_isOk_length g v k val keys values
  · intro h
    refine ⟨?_, ?_, ?_⟩
    · simp [(sortLabelset_lengths keys values h).1]
    · simp [(sortLabelset_lengths keys values h).2]
    · exact writeMetricTo_ok_shape g v k val keys values h

/-- Witness for C1: at a one-label input the sorted labelset plus the
synthetic keys has length one plus three. -/
theorem claim1_witness :
    ((sortLabelset ["b"] ["x"]).1 ++ ["group", "version", "kind"]).length
      = (["b"] : List String).length + 3 :=
  ((claim1_label_parity "g" "v" "K" "1" ["b"] ["x"]).2 rfl).1

/-- C6: sortLabelset sorts the label pairs by key, length ascending with
lexicographic tie-break, applying one permutation to keys and values
simultaneously (the output pairs are a permutation of the input pairs), and
writeMetricTo emits the labels in that order with the synthetic group,
version, kind labels appended after them in that fixed order; the emitted
ordering is a function of the input pairs. -/
theorem claim6_sorted_deterministic_order (keys values : List String)
    (h : keys.length = values.length) :
    List.Perm ((sortLabelset keys values).1.zip (sortLabelset keys values).2)
      (keys.zip values) ∧
    List.Sorted labelLe
      ((sortLabelset keys values).1.zip (sortLabelset keys values).2) ∧
    ∀ g v k val out, writeMetricTo g v k val keys values = Except.ok out →
      ∃ f, goParseFloat val = some f ∧
        out = renderLabels
            ((sortLabelset keys values).1 ++ ["group", "version", "kind"])
            ((sortLabelset keys values).2 ++ [g, v, k]) ++ " " ++
          formatFloatF f ++ "\n" := by
  have hz : (sortLabelset keys values).1.zip (sortLabelset keys values).2
      = List.insertionSort labelLe (keys.zip values) := by
    simp [sortLabelset, zip_proj_eq_self]
  refine ⟨?_, ?_, ?_⟩
  · rw [hz]
    exact List.perm_insertionSort labelLe (keys.zip values)
  · rw [hz]
    exact List.sorted_insertionSort labelLe (keys.zip values)
  · intro g v k val out hout
    exact writeMetricTo_ok_shape g v k val keys values h out hout

/-- Witness for C6: a concrete labelset is permuted into key order, keys
sorted by length then lexicographically, values carried along. -/
theorem claim6_witness :
    List.Perm
      ((sortLabelset ["bb", "a", "ab"] ["1", "2", "3"]).1.zip
        (sortLabelset ["bb", "a", "ab"] ["1", "2", "3"]).2)
      ([("bb", "1"), ("a", "2"), ("ab", "3")]) :=
  (claim6_sorted_deterministic_order ["bb", "a", "ab"] ["1", "2", "3"]
    rfl).1

/-- Resolution through the unstructured instance never consults the CEL
oracle. -/
theorem resolveLabelset_oracle (e1 e2 : CELEval) (ks qs : List String)
    (obj : UnstrMap) :
    resolveLabelset ResolverInstance.unstr e1 ks qs obj =
      resolveLabelset ResolverInstance.unstr e2 ks qs obj := by
  simp [resolveLabelset, ResolverInstance.resolve]

/-- processMetric ignores the CEL oracle when the family resolver is the
unstructured resolver and the metric leaves its resolver unset or selects
the unstructured resolver itself. -/
theorem processMetric_oracle (e1 e2 : CELEval) (f : FamilyType)
    (obj : UnstrMap) (m : MetricType)
    (hf : f.resolver = "unstructured")
    (hm : m.resolver = "" ∨ m.resolver = "unstructured") :
    processMetric e1 f obj m = processMetric e2 f obj m := by
  unfold processMetric
  rcases hm with hm | hm <;>
    simp [hm, hf, instFor, resolveLabelset, ResolverInstance.resolve]

/-- processMetrics ignores the CEL oracle under the hypotheses of
processMetric_oracle for each metric. -/
theorem processMetrics_oracle (e1 e2 : CELEval) (f : FamilyType)
    (obj : UnstrMap) (hf : f.resolver = "unstructured") :
    ∀ ml : List MetricType,
      (∀ m ∈ ml, m.resolver = "" ∨ m.resolver = "unstructured") →
      processMetrics e1 f obj ml = processMetrics e2 f obj ml := by
  intro ml
  induction ml with
  | nil => intro _; rfl
  | cons m rest ih =>
      intro hm
      unfold processMetrics
      rw [processMetric_oracle e1 e2 f obj m hf (hm m (by simp)),
        ih (fun m2 hm2 => hm m2 (by simp [hm2]))]

/-- rawWith ignores the CEL oracle when the family resolver is the
unstructured resolver and no metric selects the CEL resolver. -/
theorem rawWith_oracle (e1 e2 : CELEval) (f : FamilyType) (obj : UnstrMap)
    (hf : f.resolver = "unstructured")
    (hm : ∀ m ∈ f.metrics, m.resolver = "" ∨ m.resolver = "unstructured") :
    FamilyType.rawWith e1 f obj = FamilyType.rawWith e2 f obj := by
  unfold FamilyType.rawWith
  rw [processMetrics_oracle e1 e2 f obj hf f.metrics hm]

/-- processFamily ignores the CEL oracle when the store resolver is the
unstructured resolver and the family and its metrics leave their resolvers
unset or select the unstructured resolver. -/
theorem processFamily_oracle (e1 e2 : CELEval) (s : StoreType)
    (obj : UnstrMap) (f : FamilyType)
    (hs : s.resolver = "unstructured")
    (hfr : f.resolver = "" ∨ f.resolver = "unstructured")
    (hm : ∀ m ∈ f.metrics, m.resolver = "" ∨ m.resolver = "unstructured") :
    processFamily e1 s obj f = processFamily e2 s obj f := by
  unfold processFamily
  apply rawWith_oracle
  · show (if f.resolver = "" then s.resolver else f.resolver) = "unstructured"
    rcases hfr with hfr | hfr <;> simp [hfr, hs]
  · exact hm

/-- processFamilies ignores the CEL oracle under the hypotheses of
processFamily_oracle for each family. -/
theorem processFamilies_oracle (e1 e2 : CELEval) (s : StoreType)
    (obj : UnstrMap) (hs : s.resolver = "unstructured") :
    ∀ fl : List FamilyType,
      (∀ f ∈ fl, (f.resolver = "" ∨ f.resolver = "unstructured") ∧
        ∀ m ∈ f.metrics, m.resolver = "" ∨ m.resolver = "unstructured") →
      processFamilies e1 s obj fl = processFamilies e2 s obj fl := by
  intro fl
  induction fl with
  | nil => intro _; rfl
  | cons f rest ih =>
      intro hfl
      unfold processFamilies
      rw [processFamily_oracle e1 e2 s obj f hs (hfl f (by simp)).1
          (hfl f (by simp)).2,
        ih (fun f2 hf2 => hfl f2 (by simp [hf2]))]

/-- buildHeadersAll only pins the t field of each family to gauge. -/
theorem buildHeadersAll_fst :
    ∀ fl : List FamilyType,
      (buildHeadersAll fl).1 = fl.map (fun f => { f with t := metricTypeGauge })
  | [] => rfl
  | f :: rest => by
      simp [buildHeadersAll, buildHeadersAll_fst rest, FamilyType.buildHeaders]

/-- C7: a store built with the resolver unset is the same store as one
built with the unstructured resolver (buildStore replaces the unset
store-level resolver before the family-level fallthrough-to-CEL default can
see it), its resolver field reads unstructured, and when every family and
metric under it also leaves the resolver unset, Add is independent of the
CEL oracle: every metric is evaluated by the unstructured path resolver,
never the CEL resolver. -/
theorem claim7_unset_resolver_is_unstructured (g v k r : String)
    (fams : List FamilyType) (lk lv : List String)
    (hf : ∀ f ∈ fams, f.resolver = "" ∧ ∀ m ∈ f.metrics, m.resolver = "") :
    (buildStore g v k r fams "" lk lv).resolver = "unstructured" ∧
    buildStore g v k r fams "" lk lv =
      buildStore g v k r fams "unstructured" lk lv ∧
    ∀ (e1 e2 : CELEval) (objectI : GoObject),
      StoreType.Add e1 (buildStore g v k r fams "" lk lv) objectI =
        StoreType.Add e2 (buildStore g v k r fams "" lk lv) objectI := by
  refine ⟨rfl, rfl, ?_⟩
  intro e1 e2 objectI
  cases objectI with
  | unconvertible msg => rfl
  | unstr u =>
      unfold StoreType.Add
      simp only [toUnstructured]
      have hfam : ∀ f2 ∈ (buildStore g v k r fams "" lk lv).families,
          (f2.resolver = "" ∨ f2.resolver = "unstructured") ∧
          ∀ m ∈ f2.metrics, m.resolver = "" ∨ m.resolver = "unstructured" := by
        intro f2 hf2
        have : (buildStore g v k r fams "" lk lv).families =
            fams.map (fun f => { f with t := metricTypeGauge }) := by
          simp [buildStore, buildHeadersAll_fst]
        rw [this] at hf2
        obtain ⟨f0, hf0, rfl⟩ := List.mem_map.mp hf2
        exact ⟨Or.inl (hf f0 hf0).1,
          fun m hm => Or.inl ((hf f0 hf0).2 m hm)⟩
      rw [processFamilies_oracle e1 e2 _ u rfl _ hfam]

/-- Witness for C7: two different CEL oracles produce the same store after
Add on a concrete unset-resolver configuration. -/
theorem claim7_witness :
    StoreType.Add celEvalEcho (buildStore "g" "v" "K" "tests" [c3Family] ""
        [] []) c3Obj =
      StoreType.Add celEvalParseErr (buildStore "g" "v" "K" "tests"
        [c3Family] "" [] []) c3Obj :=
  (claim7_unset_resolver_is_unstructured "g" "v" "K" "tests" [c3Family]
    [] [] (by decide)).2.2 celEvalEcho celEvalParseErr c3Obj

end Crdmetrics
